import Mathlib

/-!
# LUNA device-detector ingestion pipeline: a verification development

Shallow embedding of the parsing, timestamp-normalization, reconciliation
and importing services of the `luna_tb` package (`services/ingest.py`,
`services/registry_import.py`, `services/label_import.py`,
`storage/repositories.py`), together with proofs of the behavioural claims
made by the specification.

Modelling conventions:
* Python `float` values are modelled as exact rationals (`ℚ`).
* Python exceptions (`IngestError`, `RegistryImportError`, `LabelImportError`,
  `ValueError`) are modelled with `Except String`; the carried string is the
  exception message.
* Python `None` is `Option.none`.
* File-system access is outside the model: a file is represented by its parsed
  line/row content.  The time-zone database (`zoneinfo`) is outside the model:
  a resolved time zone is represented by its fixed UTC offset in minutes.
* SQLite tables are modelled as in-memory lists inside a `Database` record;
  a per-file transaction is modelled by threading the committed state
  explicitly.
-/

deriving instance DecidableEq for Except

namespace Luna

/-! ## Character and string utilities -/

/-- Python's `\s` / `str.strip()` whitespace set (ASCII part):
space, tab, newline, carriage return, form feed, vertical tab. -/
def pyIsSpace (c : Char) : Bool :=
  c = ' ' || c = '\t' || c = '\n' || c = '\r' || c = '\x0c' || c = '\x0b'

/-- Python `str.strip()`: drop leading and trailing whitespace. -/
def pyStrip (s : String) : String :=
  String.mk (((s.toList.dropWhile pyIsSpace).reverse.dropWhile pyIsSpace).reverse)

/-- SQLite `TRIM(x)`: drop leading and trailing space characters (spaces only,
unlike Python `str.strip()`). -/
def sqlTrim (s : String) : String :=
  String.mk (((s.toList.dropWhile (· = ' ')).reverse.dropWhile (· = ' ')).reverse)

/-- Python `str.lower()` (ASCII part). -/
def pyLower (s : String) : String :=
  String.mk (s.toList.map Char.toLower)

/-- One step of collapsing whitespace runs: used to model
`re.sub(r"\s+", " ", s)`. -/
def collapseWsAux (c : Char) (acc : List Char) : List Char :=
  if pyIsSpace c then
    match acc with
    | ' ' :: _ => acc
    | _ => ' ' :: acc
  else c :: acc

/-- Model of `re.sub(r"\s+", " ", s)`: every maximal whitespace run becomes a
single space. -/
def collapseWs (s : String) : String :=
  String.mk (s.toList.foldr collapseWsAux [])

/-- `registry_import._normalize_header`:
`re.sub(r"\s+", " ", value.strip().lower())`. -/
def normalizeHeader (value : String) : String :=
  collapseWs (pyLower (pyStrip value))

/-- `registry_import._normalize_sheet_name`: underscores become spaces, then
header normalization. -/
def normalizeSheetName (value : String) : String :=
  normalizeHeader (String.mk (value.toList.map (fun c => if c = '_' then ' ' else c)))

/-- Python `value.replace("Z", "+00:00")` (every occurrence of the single
character `Z` is replaced). -/
def pyReplaceZ (s : String) : String :=
  String.mk (s.toList.foldr (fun c acc => if c = 'Z' then '+' :: '0' :: '0' :: ':' :: '0' :: '0' :: acc else c :: acc) [])

/-- Python `value.endswith("Z")`. -/
def endsWithZ (s : String) : Bool := s.toList.getLast? = some 'Z'

/-- Model of `ingest._empty_to_none` / `label_import._empty_to_none` /
`registry_import._clean_str`: `None` stays `None`, otherwise strip and turn
the empty result into `None`. -/
def emptyToNone : Option String → Option String
  | none => none
  | some v =>
    let s := pyStrip v
    if s = "" then none else some s

/-! ## Number parsing (models of Python `int(...)` and `float(...)`) -/

def digitVal (c : Char) : Nat := c.toNat - '0'.toNat

def digitsToNat (cs : List Char) : Nat :=
  cs.foldl (fun acc c => acc * 10 + digitVal c) 0

/-- Model of Python `int(s)` on an already-stripped string: optional sign then
one or more decimal digits.  (Underscore digit grouping is not modelled.) -/
def parseIntStr (s : String) : Option Int :=
  match s.toList with
  | [] => none
  | '+' :: rest =>
    if rest ≠ [] ∧ rest.all Char.isDigit then some (digitsToNat rest : Int) else none
  | '-' :: rest =>
    if rest ≠ [] ∧ rest.all Char.isDigit then some (-(digitsToNat rest : Int)) else none
  | cs =>
    if cs.all Char.isDigit then some (digitsToNat cs : Int) else none

/-- Mantissa of a decimal literal: `digits`, `digits.digits*` or `.digits`.
Returns the value and the unconsumed rest. -/
def parseMantissa (cs : List Char) : Option (ℚ × List Char) :=
  let intPart := cs.takeWhile Char.isDigit
  let rest := cs.dropWhile Char.isDigit
  match rest with
  | '.' :: rest2 =>
    let fracPart := rest2.takeWhile Char.isDigit
    let rest3 := rest2.dropWhile Char.isDigit
    if intPart = [] ∧ fracPart = [] then none
    else some ((digitsToNat intPart : ℚ) + (digitsToNat fracPart : ℚ) / ((10 : ℚ) ^ fracPart.length), rest3)
  | _ =>
    if intPart = [] then none else some ((digitsToNat intPart : ℚ), rest)

def applyExp (m : ℚ) (e : Int) : ℚ :=
  if 0 ≤ e then m * (10 : ℚ) ^ e.toNat else m / (10 : ℚ) ^ (-e).toNat

/-- Exponent part `[+-]?digits` that must consume the whole rest. -/
def parseExpTail (cs : List Char) : Option Int :=
  match cs with
  | '+' :: ds => if ds ≠ [] ∧ ds.all Char.isDigit then some (digitsToNat ds : Int) else none
  | '-' :: ds => if ds ≠ [] ∧ ds.all Char.isDigit then some (-(digitsToNat ds : Int)) else none
  | ds => if ds ≠ [] ∧ ds.all Char.isDigit then some (digitsToNat ds : Int) else none

/-- Model of Python `float(s)` on an already-stripped string, restricted to
finite decimal literals: `[+-]? (digits | digits.digits* | .digits)
([eE][+-]?digits)?`.  (`inf`, `nan`, hex floats and underscore grouping are
not modelled; the exact rational value of the literal is returned.) -/
def parseDecimal (s : String) : Option ℚ :=
  let signAndRest : Bool × List Char :=
    match s.toList with
    | '+' :: cs => (false, cs)
    | '-' :: cs => (true, cs)
    | cs => (false, cs)
  match parseMantissa signAndRest.2 with
  | none => none
  | some (m, rest) =>
    let signed := if signAndRest.1 then -m else m
    match rest with
    | [] => some signed
    | 'e' :: cs2 => (parseExpTail cs2).map (applyExp signed)
    | 'E' :: cs2 => (parseExpTail cs2).map (applyExp signed)
    | _ => none

/-! ## Calendar arithmetic (model of `datetime.date` / `datetime.datetime`) -/

/-- Number of days from 1970-01-01 to the civil date `y-m-d`
(Howard Hinnant's `days_from_civil`). -/
def daysFromCivil (y : Int) (m d : Nat) : Int :=
  let y' : Int := if m ≤ 2 then y - 1 else y
  let era : Int := (if 0 ≤ y' then y' else y' - 399) / 400
  let yoe : Nat := (y' - era * 400).toNat
  let mp : Nat := (m + 9) % 12
  let doy : Nat := (153 * mp + 2) / 5 + d - 1
  let doe : Nat := yoe * 365 + yoe / 4 - yoe / 100 + doy
  era * 146097 + (doe : Int) - 719468

/-- Inverse of `daysFromCivil` (Howard Hinnant's `civil_from_days`). -/
def civilFromDays (z0 : Int) : Int × Nat × Nat :=
  let z : Int := z0 + 719468
  let era : Int := (if 0 ≤ z then z else z - 146096) / 146097
  let doe : Nat := (z - era * 146097).toNat
  let yoe : Nat := (doe - doe / 1460 + doe / 36524 - doe / 146096) / 365
  let y : Int := (yoe : Int) + era * 400
  let doy : Nat := doe - (365 * yoe + yoe / 4 - yoe / 100)
  let mp : Nat := (5 * doy + 2) / 153
  let d : Nat := doy - (153 * mp + 2) / 5 + 1
  let m : Nat := if mp < 10 then mp + 3 else mp - 9
  (if m ≤ 2 then y + 1 else y, m, d)

def isLeapYear (y : Int) : Bool :=
  y % 4 = 0 && (y % 100 ≠ 0 || y % 400 = 0)

def daysInMonth (y : Int) (m : Nat) : Nat :=
  if m = 2 then (if isLeapYear y then 29 else 28)
  else if m = 4 ∨ m = 6 ∨ m = 9 ∨ m = 11 then 30
  else 31

/-- Model of an (optionally aware) `datetime.datetime` value.  A time zone is
a fixed UTC offset in whole minutes (`offsetMin = none` means naive). -/
structure PyDateTime where
  year : Nat
  month : Nat
  day : Nat
  hour : Nat
  minute : Nat
  second : Nat
  microsecond : Nat
  offsetMin : Option Int
deriving Repr, DecidableEq

/-- Model of the `datetime.datetime` constructor's range validation: returns
`none` where Python raises `ValueError`. -/
def mkPyDateTime (y mo d h mi s us : Nat) (off : Option Int) : Option PyDateTime :=
  if 1 ≤ y ∧ y ≤ 9999 ∧ 1 ≤ mo ∧ mo ≤ 12 ∧ 1 ≤ d ∧ d ≤ daysInMonth (y : Int) mo
      ∧ h ≤ 23 ∧ mi ≤ 59 ∧ s ≤ 59 ∧ us ≤ 999999 then
    some ⟨y, mo, d, h, mi, s, us, off⟩
  else none

def pad2 (n : Nat) : String := if n < 10 then "0" ++ toString n else toString n

def pad4 (n : Nat) : String :=
  if n < 10 then "000" ++ toString n
  else if n < 100 then "00" ++ toString n
  else if n < 1000 then "0" ++ toString n
  else toString n

def pad6 (n : Nat) : String :=
  if n < 10 then "00000" ++ toString n
  else if n < 100 then "0000" ++ toString n
  else if n < 1000 then "000" ++ toString n
  else if n < 10000 then "00" ++ toString n
  else if n < 100000 then "0" ++ toString n
  else toString n

/-- UTC-offset suffix of `datetime.isoformat()`: empty for naive values,
`±HH:MM` otherwise. -/
def formatOffset : Option Int → String
  | none => ""
  | some off =>
    let sign := if off < 0 then "-" else "+"
    let a := off.natAbs
    sign ++ pad2 (a / 60) ++ ":" ++ pad2 (a % 60)

/-- Model of `datetime.isoformat()`:
`YYYY-MM-DDTHH:MM:SS[.ffffff][±HH:MM]` (microseconds omitted when zero). -/
def PyDateTime.isoformat (t : PyDateTime) : String :=
  pad4 t.year ++ "-" ++ pad2 t.month ++ "-" ++ pad2 t.day ++ "T"
    ++ pad2 t.hour ++ ":" ++ pad2 t.minute ++ ":" ++ pad2 t.second
    ++ (if t.microsecond = 0 then "" else "." ++ pad6 t.microsecond)
    ++ formatOffset t.offsetMin

/-! ## ISO-8601 parsing (model of `datetime.fromisoformat`, Python ≥ 3.11) -/

def take2Digits : List Char → Option (Nat × List Char)
  | a :: b :: rest =>
    if a.isDigit ∧ b.isDigit then some (digitVal a * 10 + digitVal b, rest) else none
  | _ => none

def take4Digits : List Char → Option (Nat × List Char)
  | a :: b :: c :: d :: rest =>
    if a.isDigit ∧ b.isDigit ∧ c.isDigit ∧ d.isDigit then
      some (digitVal a * 1000 + digitVal b * 100 + digitVal c * 10 + digitVal d, rest)
    else none
  | _ => none

def expectChar (c : Char) : List Char → Option (List Char)
  | x :: rest => if x = c then some rest else none
  | [] => none

/-- Fractional-second digits scaled to microseconds (digits beyond the sixth
are truncated, shorter runs are right-padded), as `fromisoformat` does. -/
def fracToMicro (ds : List Char) : Nat :=
  digitsToNat (((ds ++ ['0', '0', '0', '0', '0', '0']).take 6))

/-- Time-of-day part `HH[:MM[:SS[.frac]]]`; returns
`(hour, minute, second, microsecond, rest)`. -/
def parseTimeOfDay (cs : List Char) : Option (Nat × Nat × Nat × Nat × List Char) := do
  let (h, r1) ← take2Digits cs
  match r1 with
  | ':' :: r2 => do
    let (mi, r3) ← take2Digits r2
    match r3 with
    | ':' :: r4 => do
      let (s, r5) ← take2Digits r4
      match r5 with
      | '.' :: r6 =>
        let ds := r6.takeWhile Char.isDigit
        let r7 := r6.dropWhile Char.isDigit
        if ds = [] then none else some (h, mi, s, fracToMicro ds, r7)
      | _ => some (h, mi, s, 0, r5)
    | _ => some (h, mi, 0, 0, r3)
  | _ => some (h, 0, 0, 0, r1)

/-- UTC-offset suffix: `Z`, `±HH`, `±HH:MM` or `±HHMM`; must end the string.
Returns the offset in minutes. -/
def parseOffsetTail (cs : List Char) : Option (Option Int) :=
  match cs with
  | [] => some none
  | ['Z'] => some (some 0)
  | c :: rest =>
    if c = '+' ∨ c = '-' then
      match take2Digits rest with
      | none => none
      | some (h, r1) =>
        let mins : Option Nat :=
          match r1 with
          | [] => some (h * 60)
          | ':' :: r2 =>
            (match take2Digits r2 with
             | some (m, []) => if m ≤ 59 then some (h * 60 + m) else none
             | _ => none)
          | _ =>
            (match take2Digits r1 with
             | some (m, []) => if m ≤ 59 then some (h * 60 + m) else none
             | _ => none)
        match mins with
        | none => none
        | some total =>
          if total < 24 * 60 then
            some (some (if c = '-' then -(total : Int) else (total : Int)))
          else none
    else none

/-- Model of `datetime.fromisoformat` (Python ≥ 3.11), restricted to the
extended format `YYYY-MM-DD[<sep>HH[:MM[:SS[.frac]]][offset]]` where `<sep>`
is any single character.  (Basic formats without separators, week dates and
ordinal dates are not modelled.) -/
def parseIsoDatetime (s : String) : Option PyDateTime := do
  let cs := s.toList
  let (y, r1) ← take4Digits cs
  let r2 ← expectChar '-' r1
  let (mo, r3) ← take2Digits r2
  let r4 ← expectChar '-' r3
  let (d, r5) ← take2Digits r4
  match r5 with
  | [] => mkPyDateTime y mo d 0 0 0 0 none
  | _sep :: r6 => do
    let (h, mi, sec, us, r7) ← parseTimeOfDay r6
    let off ← parseOffsetTail r7
    mkPyDateTime y mo d h mi sec us off

/-! ## `strptime` models for the three explicit registry formats -/

/-- `\d{1,2}` with the following pattern element known to be a non-digit:
greedily take up to two digits; a third digit means no match. -/
def take12Digits : List Char → Option (Nat × List Char)
  | [] => none
  | [a] => if a.isDigit then some (digitVal a, []) else none
  | a :: b :: rest =>
    if a.isDigit then
      if b.isDigit then
        match rest with
        | c :: _ => if c.isDigit then none else some (digitVal a * 10 + digitVal b, rest)
        | [] => some (digitVal a * 10 + digitVal b, [])
      else some (digitVal a, b :: rest)
    else none

/-- Literal whitespace in a `strptime` format: `\s+`. -/
def skipWs1 : List Char → Option (List Char)
  | c :: rest => if pyIsSpace c then some ((c :: rest).dropWhile pyIsSpace) else none
  | [] => none

/-- Date part `%Y-%m-%d` of a `strptime` pattern (`%Y` is exactly four
digits). -/
def strptimeDatePart (cs : List Char) : Option (Nat × Nat × Nat × List Char) := do
  let (y, r1) ← take4Digits cs
  let r2 ← expectChar '-' r1
  let (mo, r3) ← take12Digits r2
  let r4 ← expectChar '-' r3
  let (d, r5) ← take12Digits r4
  some (y, mo, d, r5)

/-- `datetime.strptime(s, "%Y-%m-%d %H:%M:%S")` (with the constructor's
range validation). -/
def strptimeYmdHMS (s : String) : Option PyDateTime := do
  let (y, mo, d, r5) ← strptimeDatePart s.toList
  let r6 ← skipWs1 r5
  let (h, r7) ← take12Digits r6
  let r8 ← expectChar ':' r7
  let (mi, r9) ← take12Digits r8
  let r10 ← expectChar ':' r9
  let (sec, r11) ← take12Digits r10
  if r11 = [] then mkPyDateTime y mo d h mi sec 0 none else none

/-- `datetime.strptime(s, "%Y-%m-%d %H:%M")`. -/
def strptimeYmdHM (s : String) : Option PyDateTime := do
  let (y, mo, d, r5) ← strptimeDatePart s.toList
  let r6 ← skipWs1 r5
  let (h, r7) ← take12Digits r6
  let r8 ← expectChar ':' r7
  let (mi, r9) ← take12Digits r8
  if r9 = [] then mkPyDateTime y mo d h mi 0 0 none else none

/-- `datetime.strptime(s, "%Y-%m-%d")`. -/
def strptimeYmd (s : String) : Option PyDateTime := do
  let (y, mo, d, r5) ← strptimeDatePart s.toList
  if r5 = [] then mkPyDateTime y mo d 0 0 0 0 none else none

/-! ## Timestamp normalizers -/

/-- Days from 1970-01-01 to the spreadsheet-serial epoch 1899-12-30. -/
def serialEpochDays : Int := daysFromCivil 1899 12 30

/-- `datetime(1899, 12, 30) + timedelta(days=q)`, then
`.replace(tzinfo=<offset>)`: the spreadsheet-serial branch of
`registry_import._normalize_timestamp`.  `timedelta` resolution is one
microsecond; fractional microseconds are floored (Python rounds half-even,
which agrees on every input whose total microsecond count is integral). -/
def serialDatetime (q : ℚ) (offMin : Int) : PyDateTime :=
  let totalUs : Int := Rat.floor (q * 86400000000)
  let dayOff : Int := totalUs / 86400000000
  let usOfDay : Nat := (totalUs % 86400000000).toNat
  let ymd := civilFromDays (serialEpochDays + dayOff)
  { year := ymd.1.toNat
    month := ymd.2.1
    day := ymd.2.2
    hour := usOfDay / 3600000000
    minute := usOfDay / 60000000 % 60
    second := usOfDay / 1000000 % 60
    microsecond := usOfDay % 1000000
    offsetMin := some offMin }

/-- Attach a time zone to a naive datetime, keep an aware one unchanged:
`if dt_value.tzinfo is None: dt_value = dt_value.replace(tzinfo=...)`. -/
def attachTzIfNaive (t : PyDateTime) (offMin : Int) : PyDateTime :=
  match t.offsetMin with
  | none => { t with offsetMin := some offMin }
  | some _ => t

/-- Model of `registry_import._normalize_timestamp` (the sheet path).
The default time zone resolved by `_tz_from_name` is modelled as the fixed
UTC offset `tzOffsetMin`.  Soft-fail: an unparseable value is returned
unchanged. -/
def registryNormalizeTimestamp (value : Option String) (tzOffsetMin : Int) : Option String :=
  match value with
  | none => none
  | some v =>
    let serialResult : Option String :=
      match parseDecimal v with
      | some q => if 1000 < q then some ((serialDatetime q tzOffsetMin).isoformat) else none
      | none => none
    match serialResult with
    | some r => some r
    | none =>
      match strptimeYmdHMS v with
      | some t => some ({ t with offsetMin := some tzOffsetMin }).isoformat
      | none =>
        match strptimeYmdHM v with
        | some t => some ({ t with offsetMin := some tzOffsetMin }).isoformat
        | none =>
          match strptimeYmd v with
          | some t => some ({ t with offsetMin := some tzOffsetMin }).isoformat
          | none =>
            match parseIsoDatetime v with
            | some t => some (attachTzIfNaive t tzOffsetMin).isoformat
            | none => some v

/-- Model of `ingest._normalize_timestamp` (the log-ingest path).  Hard-fail:
a non-`None` value that does not parse as ISO (after replacing a trailing `Z`)
raises `IngestError`. -/
def ingestNormalizeTimestamp (value : Option String) (tzOffsetMin : Int)
    (path : String) : Except String (Option String) :=
  match value with
  | none => .ok none
  | some v =>
    let attempt := if endsWithZ v then pyReplaceZ v else v
    match parseIsoDatetime attempt with
    | none => .error ("Invalid timestamp '" ++ v ++ "' in " ++ path)
    | some t => .ok (some (attachTzIfNaive t tzOffsetMin).isoformat)

/-! ## Domain model: readings -/

/-- `domain.models.ReadingSample` (floats as exact rationals). -/
structure ReadingSample where
  t_elapsed_s : ℚ
  temp_c : Option ℚ
  rh_pct : Option ℚ
  timestamp : Option String := none
  sensor_id : Option String := none
deriving Repr, DecidableEq

/-- The sort key order of `readings.sort(key=lambda sample: sample.t_elapsed_s)`. -/
def readingLE (a b : ReadingSample) : Prop := a.t_elapsed_s ≤ b.t_elapsed_s

instance : DecidableRel readingLE := fun a b =>
  inferInstanceAs (Decidable (a.t_elapsed_s ≤ b.t_elapsed_s))

instance : IsTotal ReadingSample readingLE := ⟨fun a b => le_total a.t_elapsed_s b.t_elapsed_s⟩

instance : IsTrans ReadingSample readingLE := ⟨fun _ _ _ h1 h2 => le_trans h1 h2⟩

/-- Model of `readings.sort(key=lambda sample: sample.t_elapsed_s)`: Python's
`list.sort` is a stable ascending sort by the key, and so is insertion sort
with `readingLE` (a stable sort's output is uniquely determined by the key
order, so the two agree on every input). -/
def sortReadings (l : List ReadingSample) : List ReadingSample :=
  List.insertionSort readingLE l

/-! ## CSV row access (model of `csv.DictReader`) -/

/-- Index of the last occurrence of `field` among the header names
(`dict(zip(fieldnames, row))` lets a later duplicate header win). -/
def lastIndexOf (header : List String) (field : String) : Option Nat :=
  (List.range header.length).foldl
    (fun acc i => if header[i]? = some field then some i else acc) none

/-- `row.get(field)` on a `csv.DictReader` row: the cell in the column of the
last header occurrence of `field`; `None` when the field is not a header name
or the row is too short (`restval`). -/
def rowGet (header row : List String) (field : String) : Option String :=
  match lastIndexOf header field with
  | none => none
  | some i => row[i]?

/-- Python `repr` of a list of strings, e.g. `['rh_pct']`, as used in the
missing-columns / missing-headers error messages. -/
def pyListRepr (xs : List String) : String :=
  "[" ++ String.intercalate ", " (xs.map (fun s => "'" ++ s ++ "'")) ++ "]"

/-! ## Field coercions (`ingest._to_float`, shared verbatim by
`label_import._to_float`) -/

/-- `_to_float(value, field, path, allow_empty=True)`. -/
def toFloatOpt (value : Option String) (field path : String) : Except String (Option ℚ) :=
  match value with
  | none => .ok none
  | some v =>
    let s := pyStrip v
    if s = "" then .ok none
    else
      match parseDecimal s with
      | some q => .ok (some q)
      | none => .error ("Invalid " ++ field ++ " value '" ++ v ++ "' in " ++ path)

/-- `_to_float(value, field, path, allow_empty=False)` (the required-field
case, whose result is always a number). -/
def toFloatReq (value : Option String) (field path : String) : Except String ℚ :=
  match value with
  | none => .error ("Missing " ++ field ++ " value in " ++ path)
  | some v =>
    let s := pyStrip v
    if s = "" then .error ("Empty " ++ field ++ " value in " ++ path)
    else
      match parseDecimal s with
      | some q => .ok q
      | none => .error ("Invalid " ++ field ++ " value '" ++ v ++ "' in " ++ path)

/-- Effectful map over a list in the `Except` monad: stop at the first
error, otherwise collect the results in order (the shape of the Python
per-row loops). -/
def exceptMapList {α β : Type} (f : α → Except String β) : List α → Except String (List β)
  | [] => .ok []
  | a :: l => do
    let b ← f a
    let bs ← exceptMapList f l
    .ok (b :: bs)

/-! ## Structured-CSV log parsing (`ingest._parse_csv_log`) -/

/-- `sorted({"t_elapsed_s", "temp_c", "rh_pct"})`. -/
def requiredColumns : List String := ["rh_pct", "t_elapsed_s", "temp_c"]

/-- One loop iteration of `_parse_csv_log`: build a `ReadingSample` from a
row (the timestamp is normalized first, as in the source). -/
def parseCsvRow (header : List String) (tz : Int) (path : String)
    (row : List String) : Except String ReadingSample := do
  let timestamp ← ingestNormalizeTimestamp (emptyToNone (rowGet header row "timestamp")) tz path
  let t ← toFloatReq (rowGet header row "t_elapsed_s") "t_elapsed_s" path
  let temp ← toFloatOpt (rowGet header row "temp_c") "temp_c" path
  let rh ← toFloatOpt (rowGet header row "rh_pct") "rh_pct" path
  .ok { t_elapsed_s := t, temp_c := temp, rh_pct := rh,
        timestamp := timestamp, sensor_id := emptyToNone (rowGet header row "sensor_id") }

/-- `_parse_csv_log` up to (but not including) the final sort.  The file is
given as its header row (`none` models a missing header row / empty file) and
its data rows. -/
def parseCsvReadings (headerRow : Option (List String)) (rows : List (List String))
    (tz : Int) (path : String) : Except String (List ReadingSample) :=
  match headerRow with
  | none => .error ("Missing header row in " ++ path)
  | some header =>
    let stripped := header.map pyStrip
    let missing := requiredColumns.filter (fun r => ¬ stripped.contains r)
    if missing ≠ [] then
      .error ("Missing required columns " ++ pyListRepr missing ++ " in " ++ path)
    else
      exceptMapList (parseCsvRow header tz path) rows

/-- `ingest._parse_csv_log`: parse the rows, then sort ascending by
`t_elapsed_s`. -/
def parseCsvLog (headerRow : Option (List String)) (rows : List (List String))
    (tz : Int) (path : String) : Except String (List ReadingSample) :=
  (parseCsvReadings headerRow rows tz path).map sortReadings

/-! ## Free-text device-log parsing (`ingest._parse_device_log`) -/

/-- The capture groups of one `_TEMP_HUMID_PATTERN` match. -/
structure TempHumidMatch where
  year : Nat
  month : Nat
  day : Nat
  hour : Nat
  minute : Nat
  second : Nat
  temp : String
  humid : String
deriving Repr, DecidableEq

def expectLiteral : List Char → List Char → Option (List Char)
  | [], cs => some cs
  | l :: ls, c :: cs => if c = l then expectLiteral ls cs else none
  | _ :: _, [] => none

def isNumDotChar (c : Char) : Bool := c.isDigit || c = '.'

/-- Pattern piece `(\d{1,2}):(\d{1,2}):(\d{1,2})` (hour, minute, second). -/
def matchHMS (cs : List Char) : Option (Nat × Nat × Nat × List Char) := do
  let (h, r1) ← take12Digits cs
  let r2 ← expectChar ':' r1
  let (mi, r3) ← take12Digits r2
  let r4 ← expectChar ':' r3
  let (sec, r5) ← take12Digits r4
  some (h, mi, sec, r5)

/-- Pattern piece `<label>\s*([0-9.]+)` (a labelled float capture). -/
def matchFloatCapture (label : List Char) (cs : List Char) : Option (String × List Char) := do
  let r1 ← expectLiteral label cs
  let r2 := r1.dropWhile pyIsSpace
  let capture := r2.takeWhile isNumDotChar
  if capture = [] then none else some (String.mk capture, r2.dropWhile isNumDotChar)

/-- Pattern piece `,\s*temp:\s*([0-9.]+),\s*humid:\s*([0-9.]+)%`. -/
def matchTempHumidTail (cs : List Char) : Option (String × String) := do
  let r1 ← expectChar ',' cs
  let (temp, r2) ← matchFloatCapture "temp:".toList (r1.dropWhile pyIsSpace)
  let r3 ← expectChar ',' r2
  let (humid, r4) ← matchFloatCapture "humid:".toList (r3.dropWhile pyIsSpace)
  let _ ← expectChar '%' r4
  some (temp, humid)

/-- Match `_TEMP_HUMID_PATTERN` anchored at the start of `cs`:
`temp_humid_sample:\s*(\d{4})-(\d{1,2})-(\d{1,2})\s+(\d{1,2}):(\d{1,2}):(\d{1,2}),\s*temp:\s*([0-9.]+),\s*humid:\s*([0-9.]+)%`.
Every quantifier in the pattern is followed by an element its own character
class cannot match, so greedy matching without backtracking is exact.
The date part `(\d{4})-(\d{1,2})-(\d{1,2})` coincides with `strptimeDatePart`. -/
def matchTempHumidAt (cs : List Char) : Option TempHumidMatch := do
  let r1 ← expectLiteral "temp_humid_sample:".toList cs
  let (y, mo, d, r2) ← strptimeDatePart (r1.dropWhile pyIsSpace)
  let r3 ← skipWs1 r2
  let (h, mi, sec, r4) ← matchHMS r3
  let (temp, humid) ← matchTempHumidTail r4
  some ⟨y, mo, d, h, mi, sec, temp, humid⟩

/-- `re.search` semantics: try the anchored matcher at each position, left to
right, and return the first (leftmost) match. -/
def searchFrom (f : List Char → Option α) : List Char → Option α
  | [] => none
  | c :: rest =>
    match f (c :: rest) with
    | some x => some x
    | none => searchFrom f rest

def matchLine (line : String) : Option TempHumidMatch :=
  searchFrom matchTempHumidAt line.toList

/-- Anchored match of `_TZ_PAREN_PATTERN = tz\(([+-]?\d+)\)`, returning the
captured signed integer. -/
def matchTzParenAt (cs : List Char) : Option Int := do
  let r ← expectLiteral "tz(".toList cs
  let signAndRest : Bool × List Char :=
    match r with
    | '+' :: r2 => (false, r2)
    | '-' :: r2 => (true, r2)
    | r2 => (false, r2)
  let ds := signAndRest.2.takeWhile Char.isDigit
  let r := signAndRest.2.dropWhile Char.isDigit
  if ds = [] then none else do
  let _ ← expectChar ')' r
  some (if signAndRest.1 then -(digitsToNat ds : Int) else (digitsToNat ds : Int))

/-- Anchored match of `_TZ_CCLK_PATTERN =
\+CCLK:\s*"\d{2}/\d{2}/\d{2},\d{2}:\d{2}:\d{2}([+-]\d{2})"`, returning the
captured signed quarter-hour count. -/
def cclkTwoDigitsThen (sep : Char) (cs : List Char) : Option (List Char) := do
  let (_, r1) ← take2Digits cs
  expectChar sep r1

/-- The signed two-digit tail `([+-]\d{2})"` of `_TZ_CCLK_PATTERN`. -/
def cclkSignedTail (cs : List Char) : Option Int :=
  match cs with
  | c :: r2 =>
    if c = '+' ∨ c = '-' then
      match take2Digits r2 with
      | some (n, r3) =>
        (expectChar '"' r3).map (fun _ => if c = '-' then -(n : Int) else (n : Int))
      | none => none
    else none
  | [] => none

def matchCclkAt (cs : List Char) : Option Int := do
  let r1 ← expectLiteral "+CCLK:".toList cs
  let r2 ← expectChar '"' (r1.dropWhile pyIsSpace)
  let r3 ← cclkTwoDigitsThen '/' r2
  let r4 ← cclkTwoDigitsThen '/' r3
  let r5 ← cclkTwoDigitsThen ',' r4
  let r6 ← cclkTwoDigitsThen ':' r5
  let r7 ← cclkTwoDigitsThen ':' r6
  let (_, r8) ← take2Digits r7
  cclkSignedTail r8

/-- `ingest._detect_tzinfo` scan: the first line carrying either hint wins,
with the `tz(N)` pattern tried first on each line. -/
def detectTzQuarters (lines : List String) : Option Int :=
  lines.findSome? (fun line =>
    match searchFrom matchTzParenAt line.toList with
    | some n => some n
    | none => searchFrom matchCclkAt line.toList)

/-- `ingest._detect_tzinfo` as a UTC offset in minutes
(`_tz_from_quarters(value)` is `value * 15` minutes); the fallback
`_tz_from_name(default_tz)` is modelled as the fixed offset `defaultTzMin`. -/
def detectTzOffset (lines : List String) (defaultTzMin : Int) : Int :=
  match detectTzQuarters lines with
  | some q => q * 15
  | none => defaultTzMin

/-- The naive instant (seconds) encoded by a matched sample's date/time
fields.  All samples of one file share one `tzinfo`, so aware-datetime
differences equal naive differences. -/
def instantOf (m : TempHumidMatch) : Int :=
  daysFromCivil (m.year : Int) m.month m.day * 86400
    + (m.hour : Int) * 3600 + (m.minute : Int) * 60 + (m.second : Int)

/-- The match loop of `_parse_device_log`: non-matching lines are skipped,
the first match initializes `base_dt`, and each match appends a reading whose
elapsed time is its instant minus `base_dt`.  An out-of-range date/time field
or a non-numeric capture raises `ValueError` (uncaught in the source). -/
def deviceLogLoop (tz : Int) (base : Option Int) :
    List String → Except String (List ReadingSample)
  | [] => .ok []
  | line :: rest =>
    match matchLine line with
    | none => deviceLogLoop tz base rest
    | some m =>
      match mkPyDateTime m.year m.month m.day m.hour m.minute m.second 0 (some tz) with
      | none => .error "ValueError: invalid date/time field in device log line"
      | some dtv =>
        match parseDecimal m.temp, parseDecimal m.humid with
        | some tempQ, some humidQ =>
          let inst := instantOf m
          let b := base.getD inst
          (deviceLogLoop tz (some b) rest).map (fun tl =>
            { t_elapsed_s := ((inst - b : Int) : ℚ)
              temp_c := some tempQ
              rh_pct := some humidQ
              timestamp := some dtv.isoformat
              sensor_id := none } :: tl)
        | _, _ => .error "ValueError: could not convert string to float"

/-- `ingest._parse_device_log` up to (but not including) the final sort. -/
def parseDeviceReadings (lines : List String) (defaultTzMin : Int) :
    Except String (List ReadingSample) :=
  deviceLogLoop (detectTzOffset lines defaultTzMin) none lines

/-- `ingest._parse_device_log`: detect the time zone, extract the matched
samples, then sort ascending by `t_elapsed_s`. -/
def parseDeviceLog (lines : List String) (defaultTzMin : Int) :
    Except String (List ReadingSample) :=
  (parseDeviceReadings lines defaultTzMin).map sortReadings

/-! ## Sampling-interval derivation (`ingest._estimate_sampling_interval`) -/

/-- The list comprehension of `_estimate_sampling_interval`: deltas of
consecutive pairs whose elapsed times do not decrease. -/
def consecutiveDeltas (readings : List ReadingSample) : List ℚ :=
  (readings.zip readings.tail).filterMap (fun p =>
    if p.1.t_elapsed_s ≤ p.2.t_elapsed_s then some (p.2.t_elapsed_s - p.1.t_elapsed_s)
    else none)

/-- `ingest._estimate_sampling_interval`. -/
def estimateSamplingInterval (readings : List ReadingSample) : Option ℚ :=
  if readings.length < 2 then none
  else
    let deltas := consecutiveDeltas readings
    if deltas = [] then none
    else some (deltas.sum / (deltas.length : ℚ))

/-! ## Registry sheet parsing (`registry_import`) -/

/-- `domain.models.RunRegistryEntry`. -/
structure RunRegistryEntry where
  external_run_id : String
  source_file : String
  source_row_number : Nat
  status : Option String := none
  planned_or_recorded_ts : Option String := none
  test_device : Option String := none
  sensor_cap : Option String := none
  diaper_type : Option String := none
  test_protocol : Option String := none
  findings_comments : Option String := none
  test_result_ref : Option String := none
  log_file_ref : Option String := none
deriving Repr, DecidableEq

/-- The original header whose normalization equals `key`
(`{_normalize_header(h): h for h in fieldnames}` lets a later duplicate
win). -/
def lookupNormalized (fieldnames : List String) (key : String) : Option String :=
  fieldnames.foldl (fun acc h => if normalizeHeader h = key then some h else acc) none

/-- `registry_import._map_row`: skip the row when the resolved
`external_run_id` is blank, otherwise map every `_COLUMN_MAP` source column
and normalize the timestamp field (soft-fail path).  The `runid` header is
present whenever `_validate_required_headers` has succeeded. -/
def mapRow (fieldnames row : List String) (sourceFile : String) (rowNum : Nat)
    (tz : Int) : Option RunRegistryEntry :=
  match lookupNormalized fieldnames "runid" with
  | none => none
  | some externalHeader =>
    match emptyToNone (rowGet fieldnames row externalHeader) with
    | none => none
    | some externalRunId =>
      let get (srcName : String) : Option String :=
        match lookupNormalized fieldnames srcName with
        | none => none
        | some h => emptyToNone (rowGet fieldnames row h)
      some
        { external_run_id := externalRunId
          source_file := sourceFile
          source_row_number := rowNum
          status := get "test status"
          planned_or_recorded_ts := registryNormalizeTimestamp (get "timestamp") tz
          test_device := get "test device"
          sensor_cap := get "sensor cap"
          diaper_type := get "diaper type"
          test_protocol := get "test protocol"
          findings_comments := get "findings / comments"
          test_result_ref := get "test result"
          log_file_ref := get "log file" }

/-- `registry_import._parse_registry_csv`: validate required headers, then
map each data row (rows are numbered from 2; blank-`runid` rows are
skipped). -/
def parseRegistryCsv (headerRow : Option (List String)) (rows : List (List String))
    (fileName : String) (tz : Int) : Except String (List RunRegistryEntry) :=
  match headerRow with
  | none => .error ("Missing header row in " ++ fileName)
  | some fieldnames =>
    let missing := (["runid", "test status", "log file"]).filter
      (fun h => (lookupNormalized fieldnames h).isNone)
    if missing ≠ [] then .error ("Missing required headers: " ++ pyListRepr missing)
    else .ok ((rows.enumFrom 2).filterMap (fun p => mapRow fieldnames p.2 fileName p.1 tz))

/-! ## Storage model (`storage/repositories.py` over in-memory tables) -/

/-- `domain.models.RunMetadata`. -/
structure RunMetadata where
  device_id : String
  diaper_type : String
  sensor_layout : String
  external_run_id : Option String := none
  file_name : Option String := none
  notes : Option String := none
  start_ts : Option String := none
  end_ts : Option String := none
  sampling_interval_s : Option ℚ := none
deriving Repr, DecidableEq

/-- One `run_registry` table row: the mapped columns plus the
`registry_id` primary key and the nullable `run_id` back-reference. -/
structure StoredRegEntry where
  registry_id : Nat
  entry : RunRegistryEntry
  run_id : Option Nat
deriving Repr, DecidableEq

/-- The SQLite database: `run_registry`, `runs` and `readings` tables, with
rowid counters. -/
structure Database where
  registry : List StoredRegEntry
  nextRegistryId : Nat
  runs : List (Nat × RunMetadata)
  nextRunId : Nat
  readings : List (Nat × ReadingSample)
deriving Repr, DecidableEq

/-- One row of `RunRegistryRepository.upsert_entries`:
`INSERT ... ON CONFLICT(external_run_id) DO UPDATE SET <mapped columns>`.
The update clause rewrites every mapped column but touches neither
`registry_id` nor `run_id`. -/
def upsertEntry (db : Database) (e : RunRegistryEntry) : Database :=
  if db.registry.any (fun s => s.entry.external_run_id == e.external_run_id) then
    { db with registry := db.registry.map (fun s =>
        if s.entry.external_run_id == e.external_run_id then { s with entry := e } else s) }
  else
    { db with
        registry := db.registry ++ [⟨db.nextRegistryId, e, none⟩]
        nextRegistryId := db.nextRegistryId + 1 }

/-- `RunRegistryRepository.upsert_entries`: upsert each entry in order and
report the number of processed rows. -/
def upsertEntries (db : Database) (entries : List RunRegistryEntry) : Database × Nat :=
  (entries.foldl upsertEntry db, entries.length)

/-- `RunRegistryRepository.find_by_log_file_ref`:
`SELECT * FROM run_registry WHERE TRIM(log_file_ref) = ?` with `fetchone()`
(first matching row in table order; a NULL `log_file_ref` never matches). -/
def findByLogFileRef (db : Database) (name : String) : Option StoredRegEntry :=
  db.registry.find? (fun s =>
    match s.entry.log_file_ref with
    | some r => sqlTrim r == name
    | none => false)

/-- `registry_import.import_run_registry` for a CSV source: parse the sheet,
fail when no rows were produced, otherwise upsert all entries in one
transaction.  The first component is the database state after the call
(unchanged when the call raises). -/
def importRunRegistry (db : Database) (headerRow : Option (List String))
    (rows : List (List String)) (fileName : String) (tz : Int) :
    Database × Except String Nat :=
  match parseRegistryCsv headerRow rows fileName tz with
  | .error e => (db, .error e)
  | .ok entries =>
    if entries = [] then (db, .error ("No registry rows found in " ++ fileName))
    else
      let res := upsertEntries db entries
      (res.1, .ok res.2)

/-! ## Label import (`label_import`) -/

/-- `domain.models.LabelEvent`. -/
structure LabelEvent where
  event_type : String
  event_time_s : ℚ
  run_id : Int
  event_ts : Option String := none
  volume_ml : Option ℚ := none
  location_label : Option String := none
  distance_cm : Option ℚ := none
  water_temp_c : Option ℚ := none
  confidence : Option ℚ := none
  source : Option String := none
  notes : Option String := none
deriving Repr, DecidableEq

/-- `label_import._required_str`. -/
def requiredStr (value : Option String) (field path : String) : Except String String :=
  match value with
  | none => .error ("Missing " ++ field ++ " value in " ++ path)
  | some v =>
    let s := pyStrip v
    if s = "" then .error ("Empty " ++ field ++ " value in " ++ path)
    else .ok s

/-- `label_import._to_int`: `None`/blank become `None`; a non-blank value
that is not a valid integer raises `LabelImportError`. -/
def toIntOpt (value : Option String) : Except String (Option Int) :=
  match value with
  | none => .ok none
  | some v =>
    let s := pyStrip v
    if s = "" then .ok none
    else
      match parseIntStr s with
      | some n => .ok (some n)
      | none => .error ("Invalid run_id value '" ++ v ++ "'")

/-- One loop iteration of `_parse_labels_csv`: resolve the row's run id
(the row-level column first, the caller default only as a fallback for an
absent or blank value), then build the `LabelEvent`. -/
def parseLabelRow (header : List String) (hasRunIdCol : Bool)
    (defaultRunId : Option Int) (path : String) (row : List String) :
    Except String LabelEvent := do
  let rowRunId ← if hasRunIdCol then toIntOpt (rowGet header row "run_id") else .ok none
  match (match rowRunId with | some r => some r | none => defaultRunId) with
  | none => .error "run_id missing: supply --run-id or include run_id column"
  | some rid => do
    let et ← requiredStr (rowGet header row "event_type") "event_type" path
    let ets ← toFloatReq (rowGet header row "event_time_s") "event_time_s" path
    let vol ← toFloatOpt (rowGet header row "volume_ml") "volume_ml" path
    let dist ← toFloatOpt (rowGet header row "distance_cm") "distance_cm" path
    let wt ← toFloatOpt (rowGet header row "water_temp_c") "water_temp_c" path
    let conf ← toFloatOpt (rowGet header row "confidence") "confidence" path
    .ok { event_type := et
          event_time_s := ets
          run_id := rid
          event_ts := emptyToNone (rowGet header row "event_ts")
          volume_ml := vol
          location_label := emptyToNone (rowGet header row "location_label")
          distance_cm := dist
          water_temp_c := wt
          confidence := conf
          source := emptyToNone (rowGet header row "source")
          notes := emptyToNone (rowGet header row "notes") }

/-- `label_import._parse_labels_csv`: require the `event_type` and
`event_time_s` headers (membership tested on stripped names), then parse
every row in order. -/
def parseLabelsCsv (headerRow : Option (List String)) (rows : List (List String))
    (defaultRunId : Option Int) (path : String) : Except String (List LabelEvent) :=
  match headerRow with
  | none => .error ("Missing header row in " ++ path)
  | some header =>
    let fieldnames := header.map pyStrip
    if ¬ (fieldnames.contains "event_type" ∧ fieldnames.contains "event_time_s") then
      .error "CSV requires event_type and event_time_s columns"
    else
      exceptMapList (parseLabelRow header (fieldnames.contains "run_id") defaultRunId path) rows

/-! ## Reconciliation and ingest orchestration (`ingest.ingest_logs`) -/

/-- The caller-supplied run metadata arguments of `ingest_logs`. -/
structure IngestArgs where
  device_id : String
  diaper_type : String
  sensor_layout : String
  run_notes : Option String := none
deriving Repr, DecidableEq

/-- A log file's parsed content; the variant models the suffix dispatch of
`_parse_log_file` (`.csv` / `.log` / anything else). -/
inductive LogContent where
  | csv (headerRow : Option (List String)) (rows : List (List String))
  | device (lines : List String)
  | unsupported (suffix : String)
deriving Repr, DecidableEq

/-- A log file: its base name (`path_obj.name`) and its content. -/
structure LogFile where
  name : String
  content : LogContent
deriving Repr, DecidableEq

/-- `ingest._parse_log_file`. -/
def parseLogFile (f : LogFile) (defaultTzMin : Int) : Except String (List ReadingSample) :=
  match f.content with
  | .csv headerRow rows => parseCsvLog headerRow rows defaultTzMin f.name
  | .device lines => parseDeviceLog lines defaultTzMin
  | .unsupported sfx => .error ("Unsupported log format: " ++ sfx)

/-- One iteration of the `ingest_logs` file loop, up to and including the
per-file `conn.commit()`: registry lookup, the two reconciliation guards,
parsing, metadata derivation, and the run/readings/linkage writes.  On error
nothing of this file's work is kept (the transaction rolls back). -/
def ingestOne (db : Database) (args : IngestArgs) (defaultTzMin : Int) (f : LogFile) :
    Except String (Database × Nat) :=
  match findByLogFileRef db f.name with
  | none =>
    .error ("No run_registry entry matches log file '" ++ f.name
      ++ "'. Import/update the registry source first.")
  | some entry =>
    match entry.run_id with
    | some rid =>
      .error ("run_registry entry for '" ++ f.name ++ "' is already linked to run_id="
        ++ toString rid)
    | none => do
      let readings ← parseLogFile f defaultTzMin
      match readings with
      | [] => .error ("No readings parsed from " ++ f.name)
      | r0 :: rest =>
        let metadata : RunMetadata :=
          { device_id := args.device_id
            diaper_type := args.diaper_type
            sensor_layout := args.sensor_layout
            external_run_id := some entry.entry.external_run_id
            file_name := some f.name
            notes := args.run_notes
            start_ts := r0.timestamp
            end_ts := (List.getLastD (r0 :: rest) r0).timestamp
            sampling_interval_s := estimateSamplingInterval (r0 :: rest) }
        let runId := db.nextRunId
        .ok ({ db with
                 runs := db.runs ++ [(runId, metadata)]
                 nextRunId := runId + 1
                 readings := db.readings ++ (r0 :: rest).map (fun r => (runId, r))
                 registry := db.registry.map (fun s =>
                   if s.registry_id = entry.registry_id then { s with run_id := some runId }
                   else s) },
               runId)

/-- `ingest.ingest_logs`: process the files sequentially, committing after
each file; the first failure aborts the call (later files are not touched),
but the states committed for earlier files persist.  The first component is
the database state as left on disk by the call. -/
def ingestLogs (db : Database) (args : IngestArgs) (defaultTzMin : Int) :
    List LogFile → Database × Except String (List Nat)
  | [] => (db, .ok [])
  | f :: rest =>
    match ingestOne db args defaultTzMin f with
    | .error e => (db, .error e)
    | .ok (db', runId) =>
      match ingestLogs db' args defaultTzMin rest with
      | (db'', .ok runIds) => (db'', .ok (runId :: runIds))
      | (db'', .error e) => (db'', .error e)

/-! ## Small reduction lemmas for the `Except` monad -/

theorem except_bind_error {α β : Type} (e : String) (f : α → Except String β) :
    (Except.error e : Except String α) >>= f = Except.error e := rfl

theorem except_bind_ok {α β : Type} (a : α) (f : α → Except String β) :
    (Except.ok a : Except String α) >>= f = f a := rfl

/-! ## General lemmas about the stable sort -/

theorem sortReadings_sorted (l : List ReadingSample) :
    (sortReadings l).Sorted readingLE :=
  List.sorted_insertionSort readingLE l

theorem filter_orderedInsert_key (k : ℚ) (a : ReadingSample) :
    ∀ l : List ReadingSample,
      (List.orderedInsert readingLE a l).filter (fun r => decide (r.t_elapsed_s = k))
        = if a.t_elapsed_s = k then a :: l.filter (fun r => decide (r.t_elapsed_s = k))
          else l.filter (fun r => decide (r.t_elapsed_s = k))
  | [] => by
    by_cases h : a.t_elapsed_s = k <;> simp [List.orderedInsert, List.filter, h]
  | b :: bs => by
    by_cases hab : readingLE a b
    · by_cases h : a.t_elapsed_s = k <;>
        simp [List.orderedInsert, hab, List.filter_cons, h]
    · have hb : b.t_elapsed_s < a.t_elapsed_s := lt_of_not_le hab
      by_cases h : a.t_elapsed_s = k
      · have hbk : ¬ b.t_elapsed_s = k := by rw [← h]; exact ne_of_lt hb
        simp [List.orderedInsert, hab, List.filter_cons, h, hbk,
          filter_orderedInsert_key k a bs]
      · by_cases hbk : b.t_elapsed_s = k <;>
          simp [List.orderedInsert, hab, List.filter_cons, h, hbk,
            filter_orderedInsert_key k a bs]

theorem sortReadings_filter_key (k : ℚ) :
    ∀ l : List ReadingSample,
      (sortReadings l).filter (fun r => decide (r.t_elapsed_s = k))
        = l.filter (fun r => decide (r.t_elapsed_s = k))
  | [] => rfl
  | a :: l => by
    have ih := sortReadings_filter_key k l
    have hrw : sortReadings (a :: l) = List.orderedInsert readingLE a (sortReadings l) := rfl
    rw [hrw, filter_orderedInsert_key]
    by_cases h : a.t_elapsed_s = k <;> simp [h, ih, List.filter_cons]

/-! ## Lemmas about `consecutiveDeltas` -/

theorem consecutiveDeltas_cons_cons (r0 r1 : ReadingSample) (l : List ReadingSample)
    (h : r0.t_elapsed_s ≤ r1.t_elapsed_s) :
    consecutiveDeltas (r0 :: r1 :: l)
      = (r1.t_elapsed_s - r0.t_elapsed_s) :: consecutiveDeltas (r1 :: l) := by
  simp [consecutiveDeltas, h]

theorem deltas_length_sorted :
    ∀ (l : List ReadingSample) (r0 : ReadingSample),
      List.Chain' readingLE (r0 :: l) → (consecutiveDeltas (r0 :: l)).length = l.length
  | [], _, _ => rfl
  | r1 :: ls, r0, h => by
    rcases List.chain'_cons.mp h with ⟨h01, htail⟩
    rw [consecutiveDeltas_cons_cons r0 r1 ls h01]
    simp [deltas_length_sorted ls r1 htail]

theorem deltas_sum_sorted :
    ∀ (l : List ReadingSample) (r0 : ReadingSample),
      List.Chain' readingLE (r0 :: l) →
      (consecutiveDeltas (r0 :: l)).sum
        = (l.getLastD r0).t_elapsed_s - r0.t_elapsed_s
  | [], r0, _ => by simp [consecutiveDeltas]
  | r1 :: ls, r0, h => by
    rcases List.chain'_cons.mp h with ⟨h01, htail⟩
    rw [consecutiveDeltas_cons_cons r0 r1 ls h01, List.getLastD_cons,
      List.sum_cons, deltas_sum_sorted ls r1 htail]
    ring

theorem deltas_nonneg (l : List ReadingSample) :
    ∀ d ∈ consecutiveDeltas l, 0 ≤ d := by
  intro d hd
  simp only [consecutiveDeltas, List.mem_filterMap] at hd
  rcases hd with ⟨p, -, hp⟩
  by_cases h : p.1.t_elapsed_s ≤ p.2.t_elapsed_s
  · rw [if_pos h, Option.some_inj] at hp
    subst hp
    linarith
  · rw [if_neg h] at hp
    cases hp

theorem sum_pos_of_mem_pos :
    ∀ (l : List ℚ), (∀ x ∈ l, 0 ≤ x) → ∀ d ∈ l, 0 < d → 0 < l.sum
  | [], _, d, hd, _ => by cases hd
  | x :: xs, hn, d, hd, hdpos => by
    rcases List.mem_cons.mp hd with rfl | hmem
    · have : 0 ≤ xs.sum := List.sum_nonneg (fun y hy => hn y (List.mem_cons_of_mem _ hy))
      simpa using add_pos_of_pos_of_nonneg hdpos this
    · have hx : 0 ≤ x := hn x (List.mem_cons_self _ _)
      have : 0 < xs.sum :=
        sum_pos_of_mem_pos xs (fun y hy => hn y (List.mem_cons_of_mem _ hy)) d hmem hdpos
      simpa using add_pos_of_nonneg_of_pos hx this

/-! ## Claim C2: sampling-interval contract -/

unseal Rat.add Rat.mul Rat.inv Rat.sub in
/-- Claim C2 counterexample: two readings with equal elapsed times form a
sorted list on which `_estimate_sampling_interval` returns `0`, which is not
a positive real as the claim asserts (the only non-negative consecutive delta
is `0`). -/
theorem estimate_interval_tie_counterexample :
    estimateSamplingInterval
        [{ t_elapsed_s := 0, temp_c := none, rh_pct := none },
         { t_elapsed_s := 0, temp_c := none, rh_pct := none }] = some 0
      ∧ ¬ ((0 : ℚ) < 0) :=
  ⟨by decide, by decide⟩

/-- Claim C2 (amended): for every list of readings the derived sampling
interval is null when the list has fewer than 2 readings or no non-negative
consecutive `t_elapsed_s` delta exists (null, not zero, not an error);
otherwise it equals the average of all non-negative consecutive deltas of the
sequence and is a non-negative real, strictly positive whenever some
non-negative consecutive delta is strictly positive. -/
theorem estimate_interval_amended (l : List ReadingSample) :
    (l.length < 2 → estimateSamplingInterval l = none)
      ∧ (consecutiveDeltas l = [] → estimateSamplingInterval l = none)
      ∧ (2 ≤ l.length → consecutiveDeltas l ≠ [] →
          estimateSamplingInterval l
              = some ((consecutiveDeltas l).sum / ((consecutiveDeltas l).length : ℚ))
            ∧ 0 ≤ (consecutiveDeltas l).sum / ((consecutiveDeltas l).length : ℚ)
            ∧ ∀ d ∈ consecutiveDeltas l, 0 < d →
                0 < (consecutiveDeltas l).sum / ((consecutiveDeltas l).length : ℚ)) := by
  refine ⟨?_, ?_, ?_⟩
  · intro h
    simp [estimateSamplingInterval, h]
  · intro h
    by_cases hl : l.length < 2
    · simp [estimateSamplingInterval, hl]
    · simp [estimateSamplingInterval, hl, h]
  · intro h2 hne
    have hlt : ¬ l.length < 2 := by omega
    have hlenpos : 0 < (consecutiveDeltas l).length := List.length_pos.mpr hne
    have hcast : (0 : ℚ) < ((consecutiveDeltas l).length : ℚ) := by exact_mod_cast hlenpos
    refine ⟨by simp [estimateSamplingInterval, hlt, hne], ?_, ?_⟩
    · exact div_nonneg (List.sum_nonneg (deltas_nonneg l)) (le_of_lt hcast)
    · intro d hd hdpos
      exact div_pos (sum_pos_of_mem_pos _ (deltas_nonneg l) d hd hdpos) hcast

unseal Rat.add Rat.mul Rat.inv Rat.sub in
/-- Witness for the amended claim C2 at a concrete sorted two-reading list
with delta 10. -/
theorem estimate_interval_amended_witness :
    estimateSamplingInterval
        [{ t_elapsed_s := 0, temp_c := none, rh_pct := none },
         { t_elapsed_s := 10, temp_c := none, rh_pct := none }] = some 10 := by
  have h := (estimate_interval_amended
    [{ t_elapsed_s := 0, temp_c := none, rh_pct := none },
     { t_elapsed_s := 10, temp_c := none, rh_pct := none }]).2.2 (by decide) (by decide)
  exact h.1.trans (by decide)

/-! ## Claim C8: on sorted input the interval is the span over n − 1 -/

/-- Claim C8: for every already-sorted list with at least 2 readings, the
derived sampling interval is never null (the no-non-negative-delta branch is
unreachable) and equals (last − first) / (n − 1): every consecutive delta of
a sorted list is non-negative, so all n − 1 deltas enter the average, whose
sum telescopes. -/
theorem sorted_estimate_interval_span (r0 : ReadingSample) (l : List ReadingSample)
    (hs : (r0 :: l).Sorted readingLE) (hne : l ≠ []) :
    estimateSamplingInterval (r0 :: l)
      = some (((l.getLastD r0).t_elapsed_s - r0.t_elapsed_s) / (l.length : ℚ)) := by
  have hch : List.Chain' readingLE (r0 :: l) := hs.chain'
  have hlen := deltas_length_sorted l r0 hch
  have hsum := deltas_sum_sorted l r0 hch
  have hlpos : 0 < l.length := List.length_pos.mpr hne
  have hne2 : consecutiveDeltas (r0 :: l) ≠ [] := by
    intro h0
    rw [h0] at hlen
    simp at hlen
    omega
  have hlt : ¬ (r0 :: l).length < 2 := by
    simp only [List.length_cons]
    omega
  simp [estimateSamplingInterval, hlt, hne2, hsum, hlen]
  omega

unseal Rat.add Rat.mul Rat.inv Rat.sub in
/-- Witness for claim C8 at a concrete sorted three-reading list:
(10 − 0) / 2 = 5. -/
theorem sorted_estimate_interval_span_witness :
    estimateSamplingInterval
        [{ t_elapsed_s := 0, temp_c := none, rh_pct := none },
         { t_elapsed_s := 4, temp_c := none, rh_pct := none },
         { t_elapsed_s := 10, temp_c := none, rh_pct := none }] = some 5 :=
  (sorted_estimate_interval_span
      { t_elapsed_s := 0, temp_c := none, rh_pct := none }
      [{ t_elapsed_s := 4, temp_c := none, rh_pct := none },
       { t_elapsed_s := 10, temp_c := none, rh_pct := none }]
      (by decide) (by decide)).trans (by decide)

/-! ## Claim C6: both parser variants return a stably sorted sequence -/

/-- Claim C6: for every input accepted by either device-log parser variant
(structured CSV or free-text log), the returned sequence is the stable
ascending sort by `t_elapsed_s` of the readings in input order: the output is
sorted non-decreasing by `t_elapsed_s` regardless of input row order, and for
every key value the sublist of readings carrying that key keeps its relative
input order (stability). -/
theorem parsers_output_sorted_stable
    (headerRow : Option (List String)) (rows : List (List String)) (tz : Int)
    (path : String) (lines : List String) (preC preD : List ReadingSample) :
    (parseCsvReadings headerRow rows tz path = .ok preC →
      parseCsvLog headerRow rows tz path = .ok (sortReadings preC)
        ∧ (sortReadings preC).Sorted readingLE
        ∧ ∀ k : ℚ, (sortReadings preC).filter (fun r => decide (r.t_elapsed_s = k))
            = preC.filter (fun r => decide (r.t_elapsed_s = k)))
      ∧ (parseDeviceReadings lines tz = .ok preD →
        parseDeviceLog lines tz = .ok (sortReadings preD)
          ∧ (sortReadings preD).Sorted readingLE
          ∧ ∀ k : ℚ, (sortReadings preD).filter (fun r => decide (r.t_elapsed_s = k))
              = preD.filter (fun r => decide (r.t_elapsed_s = k))) := by
  constructor
  · intro h
    exact ⟨by simp [parseCsvLog, h, Except.map], sortReadings_sorted preC,
      fun k => sortReadings_filter_key k preC⟩
  · intro h
    exact ⟨by simp [parseDeviceLog, h, Except.map], sortReadings_sorted preD,
      fun k => sortReadings_filter_key k preD⟩

unseal Rat.add Rat.mul Rat.inv Rat.sub in
/-- Witness for claim C6: a CSV whose rows arrive in reverse order of
elapsed time and a device log whose second sample precedes the first in
absolute time both come back sorted. -/
theorem parsers_output_sorted_stable_witness :
    parseCsvLog (some ["t_elapsed_s", "temp_c", "rh_pct"])
        [["10", "", ""], ["0", "", ""]] 0 "x.csv"
      = .ok [{ t_elapsed_s := 0, temp_c := none, rh_pct := none },
             { t_elapsed_s := 10, temp_c := none, rh_pct := none }]
    ∧ parseDeviceLog
        ["temp_humid_sample: 2024-1-1 0:1:0, temp: 1.0, humid: 2.0%",
         "temp_humid_sample: 2024-1-1 0:0:0, temp: 1.0, humid: 2.0%"] 0
      = .ok [{ t_elapsed_s := -60, temp_c := some 1, rh_pct := some 2,
               timestamp := some "2024-01-01T00:00:00+00:00" },
             { t_elapsed_s := 0, temp_c := some 1, rh_pct := some 2,
               timestamp := some "2024-01-01T00:01:00+00:00" }] := by
  have h := parsers_output_sorted_stable (some ["t_elapsed_s", "temp_c", "rh_pct"])
    [["10", "", ""], ["0", "", ""]] 0 "x.csv"
    ["temp_humid_sample: 2024-1-1 0:1:0, temp: 1.0, humid: 2.0%",
     "temp_humid_sample: 2024-1-1 0:0:0, temp: 1.0, humid: 2.0%"]
    [{ t_elapsed_s := 10, temp_c := none, rh_pct := none },
     { t_elapsed_s := 0, temp_c := none, rh_pct := none }]
    [{ t_elapsed_s := 0, temp_c := some 1, rh_pct := some 2,
       timestamp := some "2024-01-01T00:01:00+00:00" },
     { t_elapsed_s := -60, temp_c := some 1, rh_pct := some 2,
       timestamp := some "2024-01-01T00:00:00+00:00" }]
  exact ⟨((h.1 (by decide)).1).trans (by decide), ((h.2 (by decide)).1).trans (by decide)⟩

/-! ## Claim C9: invalid row-level run_id beats the caller default -/

theorem parseLabelRow_invalid_runid (header : List String) (defaultRunId : Option Int)
    (path : String) (row : List String) (v : String)
    (hv : rowGet header row "run_id" = some v)
    (hne : pyStrip v ≠ "") (hparse : parseIntStr (pyStrip v) = none) :
    parseLabelRow header true defaultRunId path row
      = .error ("Invalid run_id value '" ++ v ++ "'") := by
  simp only [parseLabelRow, toIntOpt, hv, hne, hparse, if_neg hne]
  rfl

theorem exceptMapList_error {α β : Type} (f : α → Except String β) :
    ∀ l : List α, (∃ x ∈ l, ∃ e, f x = .error e) → ∃ e, exceptMapList f l = .error e
  | [], h => by
    rcases h with ⟨x, hx, -⟩
    cases hx
  | a :: l, h => by
    rcases h with ⟨x, hx, e, hfe⟩
    rcases List.mem_cons.mp hx with rfl | hmem
    · exact ⟨e, by simp [exceptMapList, hfe, except_bind_error]⟩
    · cases hfa : f a with
      | error e2 => exact ⟨e2, by simp [exceptMapList, hfa, except_bind_error]⟩
      | ok b =>
        rcases exceptMapList_error f l ⟨x, hmem, e, hfe⟩ with ⟨e3, h3⟩
        exact ⟨e3, by simp [exceptMapList, hfa, h3, except_bind_ok, except_bind_error]⟩

/-- Claim C9: in label import, when the CSV has a `run_id` column and some
row's `run_id` value is non-blank but not a valid integer, the import raises
`LabelImportError` for every caller-supplied default run id — the default is
a fallback only for absent or blank values, never for invalid ones. -/
theorem label_import_invalid_runid_errors (header : List String)
    (rows : List (List String)) (defaultRunId : Option Int) (path : String)
    (hcol : (header.map pyStrip).contains "run_id" = true)
    (hbad : ∃ row ∈ rows, ∃ v, rowGet header row "run_id" = some v
      ∧ pyStrip v ≠ "" ∧ parseIntStr (pyStrip v) = none) :
    ∃ e, parseLabelsCsv (some header) rows defaultRunId path = .error e := by
  by_cases hreq : (header.map pyStrip).contains "event_type"
      ∧ (header.map pyStrip).contains "event_time_s"
  · have hrow : ∃ row ∈ rows, ∃ e,
        parseLabelRow header ((header.map pyStrip).contains "run_id") defaultRunId path row
          = .error e := by
      rcases hbad with ⟨row, hrmem, v, hv, hne, hparse⟩
      refine ⟨row, hrmem, "Invalid run_id value '" ++ v ++ "'", ?_⟩
      rw [hcol]
      exact parseLabelRow_invalid_runid header defaultRunId path row v hv hne hparse
    rcases exceptMapList_error _ rows hrow with ⟨e, he⟩
    refine ⟨e, ?_⟩
    show (if _ then _ else _) = _
    rw [if_neg (not_not_intro hreq)]
    exact he
  · refine ⟨"CSV requires event_type and event_time_s columns", ?_⟩
    show (if _ then _ else _) = _
    rw [if_pos hreq]

unseal Rat.add Rat.mul Rat.inv Rat.sub in
/-- Witness for claim C9: a row-level `run_id` of `"abc"` raises even though
the caller supplied default run id 7. -/
theorem label_import_invalid_runid_errors_witness :
    ∃ e, parseLabelsCsv (some ["event_type", "event_time_s", "run_id"])
        [["pee", "1.5", "abc"]] (some 7) "labels.csv" = .error e :=
  label_import_invalid_runid_errors ["event_type", "event_time_s", "run_id"]
    [["pee", "1.5", "abc"]] (some 7) "labels.csv"
    (by decide)
    ⟨["pee", "1.5", "abc"], by decide,
      "abc", by decide, by decide,
      by decide⟩

/-! ## Claim C10: a registry import that parses zero entries is an error -/

theorem mem_enumFrom_snd {α : Type} :
    ∀ (l : List α) (n : Nat) (p : Nat × α), p ∈ l.enumFrom n → p.2 ∈ l
  | [], _, _, h => by cases h
  | a :: l, n, p, h => by
    rw [List.enumFrom_cons] at h
    rcases List.mem_cons.mp h with rfl | hmem
    · exact List.mem_cons_self _ _
    · exact List.mem_cons_of_mem _ (mem_enumFrom_snd l (n + 1) p hmem)

/-- Claim C10: a registry import whose parsing yields zero entries (for
example, a sheet with a valid header row whose every data row has a blank
`runid` cell and is therefore skipped) raises `RegistryImportError` with the
no-rows message rather than succeeding with a count of 0, and the stored
state is unchanged. -/
theorem registry_import_zero_rows_error (db : Database) (header : List String)
    (rows : List (List String)) (fileName : String) (tz : Int) :
    (parseRegistryCsv (some header) rows fileName tz = .ok [] →
      importRunRegistry db (some header) rows fileName tz
        = (db, .error ("No registry rows found in " ++ fileName)))
    ∧ (∀ extH, lookupNormalized header "runid" = some extH →
        (∀ h ∈ ["runid", "test status", "log file"], (lookupNormalized header h).isSome) →
        (∀ row ∈ rows, emptyToNone (rowGet header row extH) = none) →
        parseRegistryCsv (some header) rows fileName tz = .ok []) := by
  constructor
  · intro h
    simp [importRunRegistry, h]
  · intro extH hextH hreq hblank
    obtain ⟨v2, hv2⟩ := Option.isSome_iff_exists.mp (hreq "test status" (by simp))
    obtain ⟨v3, hv3⟩ := Option.isSome_iff_exists.mp (hreq "log file" (by simp))
    have hmiss : (["runid", "test status", "log file"]).filter
        (fun h => (lookupNormalized header h).isNone) = [] := by
      simp [List.filter, hextH, hv2, hv3]
    have hall : ∀ p ∈ rows.enumFrom 2, mapRow header p.2 fileName p.1 tz = none := by
      intro p hp
      have hmem := mem_enumFrom_snd rows 2 p hp
      simp [mapRow, hextH, hblank p.2 hmem]
    simp only [parseRegistryCsv, hmiss, ne_eq, not_true_eq_false, if_false,
      not_false_eq_true, if_neg, Except.ok.injEq, List.filterMap_eq_nil_iff]
    exact hall

unseal Rat.add Rat.mul Rat.inv Rat.sub in
/-- Witness for claim C10: a header-only registry sheet with one
blank-`runid` data row imports as a hard error, leaving the database as it
was. -/
theorem registry_import_zero_rows_error_witness :
    importRunRegistry ⟨[], 1, [], 1, []⟩ (some ["RunID", "Test Status", "Log File"])
        [["", "x", "y"]] "reg.csv" 60
      = (⟨[], 1, [], 1, []⟩, .error ("No registry rows found in reg.csv")) :=
  (registry_import_zero_rows_error ⟨[], 1, [], 1, []⟩ ["RunID", "Test Status", "Log File"]
      [["", "x", "y"]] "reg.csv" 60).1
    (by decide)

/-! ## Claim C4: soft-fail vs hard-fail normalization -/

/-- Claim C4: timestamp-normalization failure is asymmetric between the two
paths.  In registry import, a non-empty value on which every parsing attempt
fails (it is not a spreadsheet serial greater than 1000, matches none of the
three explicit formats, and is not ISO) is returned unchanged and never
raises; in log ingest, a non-empty value that fails ISO parsing (after the
trailing-`Z` replacement) always raises `IngestError`. -/
theorem normalize_timestamp_asymmetry (v : String) (off : Int) (path : String) :
    (v ≠ "" →
      (∀ q, parseDecimal v = some q → ¬ 1000 < q) →
      strptimeYmdHMS v = none → strptimeYmdHM v = none → strptimeYmd v = none →
      parseIsoDatetime v = none →
      registryNormalizeTimestamp (some v) off = some v)
    ∧ (v ≠ "" →
      parseIsoDatetime (if endsWithZ v then pyReplaceZ v else v) = none →
      ingestNormalizeTimestamp (some v) off path
        = .error ("Invalid timestamp '" ++ v ++ "' in " ++ path)) := by
  constructor
  · intro _ hnum h1 h2 h3 h4
    cases hpd : parseDecimal v with
    | none => simp [registryNormalizeTimestamp, hpd, h1, h2, h3, h4]
    | some q =>
      have hq : ¬ 1000 < q := hnum q hpd
      simp [registryNormalizeTimestamp, hpd, hq, h1, h2, h3, h4]
  · intro _ hiso
    simp [ingestNormalizeTimestamp, hiso]

unseal Rat.add Rat.mul Rat.inv Rat.sub in
/-- Witness for claim C4 at the unparseable non-empty input `"hello"`: the
registry path returns it unchanged while the ingest path raises. -/
theorem normalize_timestamp_asymmetry_witness :
    registryNormalizeTimestamp (some "hello") 60 = some "hello"
    ∧ ingestNormalizeTimestamp (some "hello") 60 "f.csv"
      = .error "Invalid timestamp 'hello' in f.csv" := by
  have h := normalize_timestamp_asymmetry "hello" 60 "f.csv"
  constructor
  · refine h.1 (by decide) ?_ (by decide)
      (by decide) (by decide)
      (by decide)
    intro q hq
    rw [show parseDecimal "hello" = none from by decide] at hq
    cases hq
  · exact (h.2 (by decide) (by decide)).trans
      (by decide)

/-! ## Claim C3: spreadsheet serial timestamps -/

unseal Rat.add Rat.mul Rat.inv Rat.sub in
/-- Claim C3 counterexample: spreadsheet serial value `45678.5` with default
time zone UTC+1 normalizes to `2025-01-09T12:00:00+01:00` according to the
claim, but 1899-12-30 plus 45678.5 days is 2025-01-21 at noon, so the code
produces `2025-01-21T12:00:00+01:00`. -/
theorem serial_scenario_counterexample :
    registryNormalizeTimestamp (some "45678.5") 60 = some "2025-01-21T12:00:00+01:00"
    ∧ some "2025-01-21T12:00:00+01:00" ≠ (some "2025-01-09T12:00:00+01:00" : Option String) :=
  ⟨by decide, by decide⟩

unseal Rat.add Rat.mul Rat.inv Rat.sub in
/-- Claim C3 (amended): for every raw timestamp string that parses as a bare
number greater than 1000, registry-sheet timestamp normalization treats it as
a spreadsheet serial date — the result is the instant 1899-12-30T00:00:00
plus `value` days (fractional days encoding time-of-day, `serialDatetime`)
with the default time zone's offset attached; in particular, serial value
45678.5 with default time zone UTC+1 normalizes to
`2025-01-21T12:00:00+01:00`. -/
theorem serial_timestamp_amended :
    (∀ (s : String) (q : ℚ) (off : Int), parseDecimal s = some q → 1000 < q →
      registryNormalizeTimestamp (some s) off = some ((serialDatetime q off).isoformat))
    ∧ registryNormalizeTimestamp (some "45678.5") 60
        = some "2025-01-21T12:00:00+01:00" := by
  constructor
  · intro s q off hpd hq
    simp [registryNormalizeTimestamp, hpd, hq]
  · exact (by decide :
      registryNormalizeTimestamp (some "45678.5") 60
        = some "2025-01-21T12:00:00+01:00")

unseal Rat.add Rat.mul Rat.inv Rat.sub in
/-- Witness for the amended claim C3: applying the general serial rule at
`"45678.5"`, UTC offset 60 minutes. -/
theorem serial_timestamp_amended_witness :
    registryNormalizeTimestamp (some "45678.5") 60
      = some ((serialDatetime ((91357 : ℚ) / 2) 60).isoformat) :=
  serial_timestamp_amended.1 "45678.5" ((91357 : ℚ) / 2) 60
    (by decide) (by decide)

/-! ## Claim C5: elapsed times in the free-text device log -/

theorem deviceLogLoop_ok_times (tz : Int) :
    ∀ (lines : List String) (b : Int) (out : List ReadingSample),
      deviceLogLoop tz (some b) lines = .ok out →
      out.map (·.t_elapsed_s)
        = (lines.filterMap matchLine).map (fun m => ((instantOf m - b : Int) : ℚ))
  | [], b, out, h => by
    simp only [deviceLogLoop, Except.ok.injEq] at h
    simp [← h]
  | line :: rest, b, out, h => by
    rw [deviceLogLoop] at h
    cases hm : matchLine line with
    | none =>
      simp only [hm] at h
      simp [List.filterMap_cons, hm, deviceLogLoop_ok_times tz rest b out h]
    | some m =>
      simp only [hm] at h
      cases hdt : mkPyDateTime m.year m.month m.day m.hour m.minute m.second 0 (some tz) with
      | none =>
        simp only [hdt] at h
        exact Except.noConfusion h
      | some dtv =>
        simp only [hdt] at h
        cases hT : parseDecimal m.temp with
        | none =>
          simp only [hT] at h
          exact Except.noConfusion h
        | some tempQ =>
          cases hH : parseDecimal m.humid with
          | none =>
            simp only [hT, hH] at h
            exact Except.noConfusion h
          | some humidQ =>
            simp only [hT, hH, Option.getD_some] at h
            cases hrec : deviceLogLoop tz (some b) rest with
            | error e =>
              simp only [hrec, Except.map] at h
              exact Except.noConfusion h
            | ok tl =>
              simp only [hrec, Except.map, Except.ok.injEq] at h
              subst h
              simp [List.filterMap_cons, hm,
                deviceLogLoop_ok_times tz rest b tl hrec]

theorem deviceLogLoop_none_times (tz : Int) :
    ∀ (lines : List String) (out : List ReadingSample),
      deviceLogLoop tz none lines = .ok out →
      (lines.filterMap matchLine = [] → out = [])
      ∧ ∀ m0 ms, lines.filterMap matchLine = m0 :: ms →
          out.map (·.t_elapsed_s)
            = (lines.filterMap matchLine).map
                (fun m => ((instantOf m - instantOf m0 : Int) : ℚ))
  | [], out, h => by
    simp only [deviceLogLoop, Except.ok.injEq] at h
    constructor
    · intro
      exact h.symm
    · intro m0 ms hms
      cases hms
  | line :: rest, out, h => by
    rw [deviceLogLoop] at h
    cases hm : matchLine line with
    | none =>
      simp only [hm] at h
      have ih := deviceLogLoop_none_times tz rest out h
      constructor
      · intro h0
        rw [List.filterMap_cons_none hm] at h0
        exact ih.1 h0
      · intro m0 ms hms
        rw [List.filterMap_cons_none hm] at hms
        simp [List.filterMap_cons, hm, ih.2 m0 ms hms, hms]
    | some m =>
      simp only [hm] at h
      cases hdt : mkPyDateTime m.year m.month m.day m.hour m.minute m.second 0 (some tz) with
      | none =>
        simp only [hdt] at h
        exact Except.noConfusion h
      | some dtv =>
        simp only [hdt] at h
        cases hT : parseDecimal m.temp with
        | none =>
          simp only [hT] at h
          exact Except.noConfusion h
        | some tempQ =>
          cases hH : parseDecimal m.humid with
          | none =>
            simp only [hT, hH] at h
            exact Except.noConfusion h
          | some humidQ =>
            simp only [hT, hH, Option.getD_none] at h
            cases hrec : deviceLogLoop tz (some (instantOf m)) rest with
            | error e =>
              simp only [hrec, Except.map] at h
              exact Except.noConfusion h
            | ok tl =>
              simp only [hrec, Except.map, Except.ok.injEq] at h
              subst h
              constructor
              · intro h0
                rw [List.filterMap_cons_some hm] at h0
                cases h0
              · intro m0 ms hms
                rw [List.filterMap_cons_some hm] at hms
                injection hms with h1 h2
                subst h1
                subst h2
                have htl := deviceLogLoop_ok_times tz rest (instantOf m) tl hrec
                rw [List.filterMap_cons_some hm]
                simp [htl]

/-- Claim C5: for every free-text device log that parses successfully, lines
not matching the `temp_humid_sample` pattern contribute no readings (the
extracted sequence is in bijection with the matched lines, in order), every
matched sample's elapsed time equals its absolute instant minus the absolute
instant of the first matched sample, and in particular the first matched
line's reading has `t_elapsed_s` exactly 0. -/
theorem device_log_elapsed_times (lines : List String) (defaultTzMin : Int)
    (pre : List ReadingSample)
    (h : parseDeviceReadings lines defaultTzMin = .ok pre) :
    (lines.filterMap matchLine = [] → pre = [])
    ∧ pre.length = (lines.filterMap matchLine).length
    ∧ ∀ m0 ms, lines.filterMap matchLine = m0 :: ms →
        pre.map (·.t_elapsed_s)
          = (lines.filterMap matchLine).map
              (fun m => ((instantOf m - instantOf m0 : Int) : ℚ))
        ∧ pre.head?.map (·.t_elapsed_s) = some 0 := by
  have hspec := deviceLogLoop_none_times (detectTzOffset lines defaultTzMin) lines pre h
  refine ⟨hspec.1, ?_, ?_⟩
  · cases hms : lines.filterMap matchLine with
    | nil => simp [hspec.1 hms]
    | cons m0 ms =>
      have hmap := hspec.2 m0 ms hms
      have hlen := congrArg List.length hmap
      rw [hms] at hlen
      simpa using hlen
  · intro m0 ms hms
    have hmap := hspec.2 m0 ms hms
    refine ⟨hmap, ?_⟩
    have hhead := congrArg List.head? hmap
    rw [List.head?_map, List.head?_map, hms] at hhead
    simp at hhead
    simp [hhead]

unseal Rat.add Rat.mul Rat.inv Rat.sub in
/-- Witness for claim C5: a two-sample log with an interleaved noise line;
the first match is at elapsed 0, the second 60 seconds later. -/
theorem device_log_elapsed_times_witness :
    ([{ t_elapsed_s := (0 : ℚ), temp_c := some 1, rh_pct := some 2,
        timestamp := some "2024-01-01T00:00:00+00:00", sensor_id := none },
      { t_elapsed_s := (60 : ℚ), temp_c := some 1, rh_pct := some 2,
        timestamp := some "2024-01-01T00:01:00+00:00",
        sensor_id := none }] : List ReadingSample).head?.map (·.t_elapsed_s) = some 0 := by
  have h := device_log_elapsed_times
    ["temp_humid_sample: 2024-1-1 0:0:0, temp: 1.0, humid: 2.0%",
     "noise line",
     "temp_humid_sample: 2024-1-1 0:1:0, temp: 1.0, humid: 2.0%"] 0
    [{ t_elapsed_s := (0 : ℚ), temp_c := some 1, rh_pct := some 2,
       timestamp := some "2024-01-01T00:00:00+00:00", sensor_id := none },
     { t_elapsed_s := (60 : ℚ), temp_c := some 1, rh_pct := some 2,
       timestamp := some "2024-01-01T00:01:00+00:00", sensor_id := none }]
    (by decide)
  exact (h.2.2 ⟨2024, 1, 1, 0, 0, 0, "1.0", "2.0"⟩
    [⟨2024, 1, 1, 0, 1, 0, "1.0", "2.0"⟩] (by decide)).2

/-! ## Claim C1: registry reconciliation guards -/

/-- Claim C1: for every ingest of a log file, a new run is created only if a
registry entry exists whose trimmed `log_file_ref` exactly equals the file's
base name and whose `run_id` is null.  If no such entry exists, or the
matching entry's `run_id` is already non-null, `ingest_logs` raises
`IngestError` (naming the already-linked run id in the latter case) and no
run is created; on success the new run id is linked exactly to the matched,
previously unlinked entry, so at most one run is ever linked to a given
registry entry. -/
theorem ingest_reconciliation_guards (db : Database) (args : IngestArgs)
    (tz : Int) (f : LogFile) :
    (findByLogFileRef db f.name = none →
      ingestOne db args tz f = .error ("No run_registry entry matches log file '"
        ++ f.name ++ "'. Import/update the registry source first."))
    ∧ (∀ entry rid, findByLogFileRef db f.name = some entry → entry.run_id = some rid →
      ingestOne db args tz f = .error ("run_registry entry for '" ++ f.name
        ++ "' is already linked to run_id=" ++ toString rid))
    ∧ (∀ db' runId, ingestOne db args tz f = .ok (db', runId) →
      ∃ entry, findByLogFileRef db f.name = some entry ∧ entry.run_id = none
        ∧ runId = db.nextRunId
        ∧ (∃ md, db'.runs = db.runs ++ [(runId, md)])
        ∧ db'.registry = db.registry.map (fun s =>
            if s.registry_id = entry.registry_id then { s with run_id := some runId }
            else s)) := by
  refine ⟨?_, ?_, ?_⟩
  · intro h
    simp [ingestOne, h]
  · intro entry rid he hrid
    simp [ingestOne, he, hrid]
  · intro db' runId h
    rw [ingestOne] at h
    cases hf : findByLogFileRef db f.name with
    | none =>
      simp only [hf] at h
      exact Except.noConfusion h
    | some entry =>
      simp only [hf] at h
      cases hr : entry.run_id with
      | some rid =>
        simp only [hr] at h
        exact Except.noConfusion h
      | none =>
        simp only [hr] at h
        cases hp : parseLogFile f tz with
        | error e =>
          rw [hp, except_bind_error] at h
          exact Except.noConfusion h
        | ok readings =>
          rw [hp, except_bind_ok] at h
          cases readings with
          | nil =>
            simp only at h
            exact Except.noConfusion h
          | cons r0 rest =>
            simp only [Except.ok.injEq, Prod.mk.injEq] at h
            obtain ⟨hdb, hrun⟩ := h
            refine ⟨entry, rfl, hr, hrun.symm, ?_, ?_⟩
            · exact ⟨_, by rw [← hdb, ← hrun]⟩
            · rw [← hdb, ← hrun]

unseal Rat.add Rat.mul Rat.inv Rat.sub in
/-- Witness for claim C1: an entry whose trimmed `log_file_ref` matches
`a.csv` but which is already linked to run 3 makes ingest fail with the
already-linked message. -/
theorem ingest_reconciliation_guards_witness :
    ingestOne
        ⟨[⟨1, ⟨"R1", "reg.csv", 2, none, none, none, none, none, none, none, none,
            some " a.csv "⟩, some 3⟩], 2, [], 1, []⟩
        ⟨"dev1", "brand", "layout", none⟩ 60 ⟨"a.csv", .unsupported ".txt"⟩
      = .error "run_registry entry for 'a.csv' is already linked to run_id=3" :=
  ((ingest_reconciliation_guards
      ⟨[⟨1, ⟨"R1", "reg.csv", 2, none, none, none, none, none, none, none, none,
          some " a.csv "⟩, some 3⟩], 2, [], 1, []⟩
      ⟨"dev1", "brand", "layout", none⟩ 60 ⟨"a.csv", .unsupported ".txt"⟩).2.1
    ⟨1, ⟨"R1", "reg.csv", 2, none, none, none, none, none, none, none, none,
        some " a.csv "⟩, some 3⟩ 3 (by decide) (by decide)).trans (by decide)

/-! ## Claim C7: sequential per-file transactions -/

/-- Claim C7: for every multi-file invocation of `ingest_logs`, files are
processed sequentially with one commit per file.  If the invocation raises,
the input splits as an all-successful prefix, the failing file, and an
untouched suffix; the state left behind is exactly the state committed for
the prefix (earlier files' work persists), the failing file fails on that
committed state, and no partial list of run ids is returned.  A fully
successful invocation returns one run id per file. -/
theorem ingest_per_file_transactions (args : IngestArgs) (tz : Int) :
    ∀ (files : List LogFile) (db : Database),
      (∀ db2 e, ingestLogs db args tz files = (db2, .error e) →
        ∃ pre f post rids, files = pre ++ f :: post
          ∧ ingestLogs db args tz pre = (db2, .ok rids)
          ∧ ingestOne db2 args tz f = .error e)
      ∧ (∀ db2 rids, ingestLogs db args tz files = (db2, .ok rids) →
          rids.length = files.length)
  | [], db => by
    constructor
    · intro db2 e h
      rw [ingestLogs] at h
      simp at h
    · intro db2 rids h
      rw [ingestLogs] at h
      simp only [Prod.mk.injEq, Except.ok.injEq] at h
      simp [← h.2]
  | f :: rest, db => by
    cases hone : ingestOne db args tz f with
    | error e0 =>
      constructor
      · intro db2 e h
        rw [ingestLogs] at h
        simp only [hone] at h
        simp only [Prod.mk.injEq, Except.error.injEq] at h
        obtain ⟨rfl, rfl⟩ := h
        refine ⟨[], f, rest, [], rfl, ?_, hone⟩
        rw [ingestLogs]
      · intro db2 rids h
        rw [ingestLogs] at h
        simp only [hone] at h
        simp at h
    | ok p =>
      obtain ⟨db1, rid⟩ := p
      have IH := ingest_per_file_transactions args tz rest db1
      constructor
      · intro db2 e h
        rw [ingestLogs] at h
        simp only [hone] at h
        cases hrec : ingestLogs db1 args tz rest with
        | mk db3 res =>
          cases res with
          | ok rids2 =>
            simp only [hrec] at h
            simp at h
          | error e2 =>
            simp only [hrec] at h
            simp only [Prod.mk.injEq, Except.error.injEq] at h
            obtain ⟨rfl, rfl⟩ := h
            obtain ⟨pre, f2, post, rids, hsplit, hpre, hfail⟩ := IH.1 _ _ hrec
            refine ⟨f :: pre, f2, post, rid :: rids, by rw [hsplit]; rfl, ?_, hfail⟩
            rw [ingestLogs]
            simp only [hone, hpre]
      · intro db2 rids h
        rw [ingestLogs] at h
        simp only [hone] at h
        cases hrec : ingestLogs db1 args tz rest with
        | mk db3 res =>
          cases res with
          | error e2 =>
            simp only [hrec] at h
            simp at h
          | ok rids2 =>
            simp only [hrec] at h
            simp only [Prod.mk.injEq, Except.ok.injEq] at h
            obtain ⟨rfl, hr⟩ := h
            simp [← hr, IH.2 _ _ hrec]

unseal Rat.add Rat.mul Rat.inv Rat.sub in
/-- Witness for claim C7: of two files, the first ingests and commits (run 1
is created and linked, sampling interval 10) and the second has no registry
entry; the whole invocation raises while the first file's committed state
persists. -/
theorem ingest_per_file_transactions_witness :
    ∃ pre f post rids,
      ([⟨"a.csv", .csv (some ["t_elapsed_s", "temp_c", "rh_pct"])
          [["0", "", ""], ["10", "", ""]]⟩,
        ⟨"b.csv", .device []⟩] : List LogFile) = pre ++ f :: post
      ∧ ingestLogs
          ⟨[⟨1, ⟨"R1", "reg.csv", 2, none, none, none, none, none, none, none, none,
              some "a.csv"⟩, none⟩], 2, [], 1, []⟩
          ⟨"dev1", "brand", "layout", none⟩ 60 pre
        = (⟨[⟨1, ⟨"R1", "reg.csv", 2, none, none, none, none, none, none, none, none,
              some "a.csv"⟩, some 1⟩], 2,
            [(1, ⟨"dev1", "brand", "layout", some "R1", some "a.csv", none, none, none,
               some 10⟩)], 2,
            [(1, ⟨0, none, none, none, none⟩), (1, ⟨10, none, none, none, none⟩)]⟩,
           .ok rids)
      ∧ ingestOne
          ⟨[⟨1, ⟨"R1", "reg.csv", 2, none, none, none, none, none, none, none, none,
              some "a.csv"⟩, some 1⟩], 2,
            [(1, ⟨"dev1", "brand", "layout", some "R1", some "a.csv", none, none, none,
               some 10⟩)], 2,
            [(1, ⟨0, none, none, none, none⟩), (1, ⟨10, none, none, none, none⟩)]⟩
          ⟨"dev1", "brand", "layout", none⟩ 60 f
        = .error
            "No run_registry entry matches log file 'b.csv'. Import/update the registry source first." :=
  (ingest_per_file_transactions ⟨"dev1", "brand", "layout", none⟩ 60
      [⟨"a.csv", .csv (some ["t_elapsed_s", "temp_c", "rh_pct"])
          [["0", "", ""], ["10", "", ""]]⟩,
       ⟨"b.csv", .device []⟩]
      ⟨[⟨1, ⟨"R1", "reg.csv", 2, none, none, none, none, none, none, none, none,
          some "a.csv"⟩, none⟩], 2, [], 1, []⟩).1
    ⟨[⟨1, ⟨"R1", "reg.csv", 2, none, none, none, none, none, none, none, none,
        some "a.csv"⟩, some 1⟩], 2,
      [(1, ⟨"dev1", "brand", "layout", some "R1", some "a.csv", none, none, none,
         some 10⟩)], 2,
      [(1, ⟨0, none, none, none, none⟩), (1, ⟨10, none, none, none, none⟩)]⟩
    "No run_registry entry matches log file 'b.csv'. Import/update the registry source first."
    (by decide)

end Luna
